import Mathlib

/-!
Shallow embedding of the driver-detection core of the
`streamlit_telecom_forecast` repository.

Two engines are modelled from the source:

* `detect_add_churn_drivers.py` — the alignment engine: weekly spine with
  4-week rolling sums, driver share, 8-week rolling Pearson correlation,
  bounded alignment score and threshold classification.
* `detect_subscription_drivers.py` — the regime-shift engine: tier
  classification from product names, weekly unique-id aggregation, 4-week
  smoothing, regime split (threshold or fixed-window) and threshold
  classification.

Conventions of the embedding:

* Float values are modelled as `ℚ` wherever the source only adds, divides
  and compares; Pearson correlation values (which involve a square root)
  are modelled as `ℝ`.
* A float `NaN` (pandas missing value) is modelled as `none` of an
  `Option` type; pandas `mean()` skips `NaN` entries, modelled by
  `nanmean_r` / `qmean`; a comparison `NaN >= t` in Python is `False`,
  modelled by `optGEr` / `optGEq` returning `false` on `none`.
* Python dicts with fixed key sets become structures; a key that is absent
  on some branches becomes an `Option` field.
-/

namespace TelecomForecast

/-! ### Generic list helpers (rolling windows, means) -/

/-- All contiguous windows of width `w` (only the full ones), in order:
models the defined positions of a pandas `rolling(w)` computation. -/
def windows (w : ℕ) : List α → List (List α)
  | [] => []
  | a :: rest =>
      if rest.length + 1 < w then []
      else (a :: rest).take w :: windows w rest

/-- Rolling sum of width `w`, restricted to the defined positions
(the first `w-1` NaN positions are dropped, as `dropna` does). -/
def rolling_sum (w : ℕ) (l : List ℚ) : List ℚ :=
  (windows w l).map (fun v => v.sum)

/-- Arithmetic mean of a list of rationals (`0` on the empty list, which is
never reached where the source takes a mean of a nonempty slice). -/
def mean_q (l : List ℚ) : ℚ :=
  l.sum / l.length

/-- pandas `Series.mean()` over a column that may be empty: `NaN` (here
`none`) on the empty list. -/
def qmean (l : List ℚ) : Option ℚ :=
  if l.isEmpty then none else some (l.sum / l.length)

/-- pandas `Series.mean()` with NaN-skipping over an `Option ℝ` column:
mean of the present values, `none` when no value is present. -/
noncomputable def nanmean_r (l : List (Option ℝ)) : Option ℝ :=
  let v := l.filterMap id
  if v.isEmpty then none else some (v.sum / v.length)

/-- pandas `Series.mean()` with NaN-skipping over an `Option ℚ` column. -/
def nanmean_q (l : List (Option ℚ)) : Option ℚ :=
  let v := l.filterMap id
  if v.isEmpty then none else some (v.sum / v.length)

/-- pandas `Series.tail(n)`: the last `n` entries (all of them if fewer). -/
def tail_n (n : ℕ) (l : List α) : List α :=
  l.drop (l.length - n)

/-- Python `x >= t` on a possibly-NaN float `x` (`NaN >= t` is `False`),
real-valued version. -/
noncomputable def optGEr (o : Option ℝ) (t : ℝ) : Bool :=
  match o with
  | none => false
  | some x => decide (t ≤ x)

/-- Python `x >= t` on a possibly-NaN float `x`, rational version. -/
def optGEq (o : Option ℚ) (t : ℚ) : Bool :=
  match o with
  | none => false
  | some x => decide (t ≤ x)

/-! ### Pearson correlation (pandas `rolling(w).corr`)

pandas computes `cov(x, y) / (std x * std y)`; the `1/(n-1)` factors cancel,
leaving `S_xy / sqrt (S_xx * S_yy)` over the centered sums.  When a window
has zero variance on either side the float result is `NaN` (`none`). -/

/-- Sum of squared deviations from the mean. -/
def sq_dev_sum (l : List ℚ) : ℚ :=
  (l.map (fun v => (v - mean_q l) ^ 2)).sum

/-- Sum of products of deviations from the respective means. -/
def cross_dev_sum (x y : List ℚ) : ℚ :=
  ((x.zip y).map (fun p => (p.1 - mean_q x) * (p.2 - mean_q y))).sum

/-- Pearson correlation of two equal-length windows; `none` models the NaN
produced by pandas when either window is constant. -/
noncomputable def pearson (x y : List ℚ) : Option ℝ :=
  if sq_dev_sum x = 0 ∨ sq_dev_sum y = 0 then none
  else some ((cross_dev_sum x y : ℝ) /
    Real.sqrt ((sq_dev_sum x : ℝ) * (sq_dev_sum y : ℝ)))

/-- The defined entries of `x.rolling(w).corr(y)`, one per full window. -/
noncomputable def rolling_corr (w : ℕ) (x y : List ℚ) : List (Option ℝ) :=
  (windows w (x.zip y)).map (fun p => pearson (p.map Prod.fst) (p.map Prod.snd))

/-- Full `x.rolling(w).corr(y)` column, with the leading `w-1` NaN
positions kept as `none` (the source keeps those rows in the spine). -/
noncomputable def rolling_corr_col (w : ℕ) (x y : List ℚ) : List (Option ℝ) :=
  List.replicate (min (x.zip y).length (w - 1)) none ++ rolling_corr w x y

/-! ### Alignment engine (`detect_add_churn_drivers.py`)

Configuration constants from the source:
`ROLLING_WINDOW = 4`, `CORR_WINDOW = 8`, `MIN_POINTS = 12`,
`CORR_ALIGNED = 0.60`, `SHARE_MIN = 0.10`, `SCORE_ALIGNED = 0.65`. -/

/-- One row of the weekly input table of the alignment engine
(`week_start`, target count, driver count). -/
structure AlignRow where
  week : ℕ
  target : ℚ
  driver : ℚ
deriving DecidableEq

/-- Insert a row into a week-sorted list (ascending). -/
def insertRow (r : AlignRow) : List AlignRow → List AlignRow
  | [] => [r]
  | a :: rest => if r.week < a.week then r :: a :: rest else a :: insertRow r rest

/-- `df.sort_values(date_col)`: sort rows by week ascending. -/
def sortRows : List AlignRow → List AlignRow
  | [] => []
  | a :: rest => insertRow a (sortRows rest)

/-- `_safe_div`: `np.where(d == 0, np.nan, n / d)` pointwise. -/
def safe_div (n d : ℚ) : Option ℚ :=
  if d = 0 then none else some (n / d)

/-- The `{target_col}_rw` column of `_build_spine` after `dropna`. -/
def target_rw_of (df : List AlignRow) : List ℚ :=
  rolling_sum 4 ((sortRows df).map AlignRow.target)

/-- The `{driver_col}_rw` column of `_build_spine` after `dropna`. -/
def driver_rw_of (df : List AlignRow) : List ℚ :=
  rolling_sum 4 ((sortRows df).map AlignRow.driver)

/-- The `driver_share` column of `_build_spine`. -/
def share_col_of (df : List AlignRow) : List (Option ℚ) :=
  ((driver_rw_of df).zip (target_rw_of df)).map (fun p => safe_div p.1 p.2)

/-- The `rolling_corr` column of `_build_spine` (window `CORR_WINDOW = 8`,
driver rolling-sum against target rolling-sum). -/
noncomputable def corr_col_of (df : List AlignRow) : List (Option ℝ) :=
  rolling_corr_col 8 (driver_rw_of df) (target_rw_of df)

/-- The spine produced by `_build_spine`: the post-`dropna` columns used by
`_summarize_alignment`. -/
structure Spine where
  target_rw : List ℚ
  driver_rw : List ℚ
  driver_share : List (Option ℚ)
  rolling_corr : List (Option ℝ)

/-- `_build_spine`: `None` when fewer than `MIN_POINTS = 12` rows remain
after the rolling sums and `dropna`. -/
noncomputable def build_spine (df : List AlignRow) : Option Spine :=
  if (target_rw_of df).length < 12 then none
  else some ⟨target_rw_of df, driver_rw_of df, share_col_of df, corr_col_of df⟩

/-- The corr component of `_alignment_score`: `(corr + 1) / 2` with the
None/NaN-to-`0` fallback. -/
noncomputable def corr_component (c : Option ℝ) : ℝ :=
  match c with
  | none => 0
  | some x => (x + 1) / 2

/-- The share component of `_alignment_score`: `min(max(share, 0), 1)` with
the None/NaN-to-`0` fallback. -/
noncomputable def share_component (s : Option ℝ) : ℝ :=
  match s with
  | none => 0
  | some x => min (max x 0) 1

/-- `_alignment_score` with the default weights `0.7` / `0.3`. -/
noncomputable def alignment_score (c s : Option ℝ) : ℝ :=
  0.7 * corr_component c + 0.3 * share_component s

/-- The metrics dict returned by `_summarize_alignment`.  Keys whose values
can be NaN/None are `Option`-typed. -/
structure AlignMetrics where
  corr_latest : Option ℝ
  corr_recent_avg : Option ℝ
  share_latest : Option ℚ
  share_recent_avg : Option ℚ
  alignment_score : ℝ
  target_level_recent : Option ℚ
  driver_level_recent : Option ℚ

/-- The `(aligned, confidence, metrics)` triple of `_summarize_alignment`. -/
structure SummOut where
  aligned : Bool
  confidence : String
  metrics : AlignMetrics

/-- `_summarize_alignment` over a spine. -/
noncomputable def summarize_alignment (sp : Spine) : SummOut :=
  let recent_corr : Option ℝ := sp.rolling_corr.getLast?.join
  let avg_corr_recent : Option ℝ :=
    if 8 ≤ sp.rolling_corr.length then nanmean_r (tail_n 8 sp.rolling_corr)
    else nanmean_r sp.rolling_corr
  let share_recent : Option ℚ :=
    if 8 ≤ sp.driver_share.length then nanmean_q (tail_n 8 sp.driver_share)
    else nanmean_q sp.driver_share
  let share_latest : Option ℚ := sp.driver_share.getLast?.join
  let target_level_recent : Option ℚ := qmean (tail_n 8 sp.target_rw)
  let driver_level_recent : Option ℚ := qmean (tail_n 8 sp.driver_rw)
  let score : ℝ := alignment_score avg_corr_recent (share_recent.map (fun q => (q : ℝ)))
  let aligned : Bool :=
    optGEr avg_corr_recent 0.60 && optGEq share_recent 0.10 && decide ((0.65 : ℝ) ≤ score)
  let confidence : String :=
    if aligned && decide ((0.80 : ℝ) ≤ score) then "high"
    else if aligned then "medium"
    else "low"
  ⟨aligned, confidence,
    ⟨recent_corr, avg_corr_recent, share_latest, share_recent, score,
      target_level_recent, driver_level_recent⟩⟩

/-- The metrics value carried by a driver-check dict: the empty dict of the
prepaid-churn stub, or the full dict of `_summarize_alignment`. -/
inductive MetricsVal where
  | emptyDict
  | full (m : AlignMetrics)

/-- The result dict of one alignment driver check.  `metrics` and `reason`
are keys that are absent on some branches, hence `Option`-typed. -/
structure AlignResult where
  driver : String
  aligned : Bool
  confidence : String
  metrics : Option MetricsVal
  reason : Option String

/-- Common body of the three spine-based driver checks (they differ only in
the driver-name string and the column names, which the row type fixes). -/
noncomputable def detect_driver (name : String) (df : List AlignRow) : AlignResult :=
  match build_spine df with
  | none => ⟨name, false, "low", none, some "Insufficient data"⟩
  | some sp =>
      let s := summarize_alignment sp
      ⟨name, s.aligned, s.confidence, some (.full s.metrics), none⟩

/-- `_detect_postpaid_add_driver`. -/
noncomputable def detect_postpaid_add_driver (df : List AlignRow) : AlignResult :=
  detect_driver "retail_add_growth" df

/-- `_detect_postpaid_churn_driver`. -/
noncomputable def detect_postpaid_churn_driver (df : List AlignRow) : AlignResult :=
  detect_driver "competitive_churn_spike" df

/-- `_detect_prepaid_add_driver`. -/
noncomputable def detect_prepaid_add_driver (df : List AlignRow) : AlignResult :=
  detect_driver "portin_add_growth" df

/-- `_detect_prepaid_churn_driver`: the constant "no driver" stub. -/
def detect_prepaid_churn_driver (_df : List AlignRow) : AlignResult :=
  ⟨"no_structural_driver_detected", false, "low", some .emptyDict, none⟩

/-- The nested composite dict returned by `detect_add_churn_drivers`. -/
structure AddChurnAnalysis where
  postpaid_adds : AlignResult
  postpaid_churn : AlignResult
  prepaid_adds : AlignResult
  prepaid_churn : AlignResult

/-- `detect_add_churn_drivers`, the public entrypoint. -/
noncomputable def detect_add_churn_drivers
    (postpaid_add_df postpaid_churn_df prepaid_add_df prepaid_churn_df :
      List AlignRow) : AddChurnAnalysis :=
  ⟨detect_postpaid_add_driver postpaid_add_df,
   detect_postpaid_churn_driver postpaid_churn_df,
   detect_prepaid_add_driver prepaid_add_df,
   detect_prepaid_churn_driver prepaid_churn_df⟩

/-! ### Regime-shift engine (`detect_subscription_drivers.py`)

Configuration constants from the source: `PREMIUM_REGIME_THRESHOLD = 0.15`,
prepaid thresholds `0.10` / `1.2` / `0.6`, postpaid thresholds
`0.05` / `1.2` / `0.5`. -/

/-- One row of the event-level master table
(`week_start`, `unique_subscription_id`, `product_name`, `segment`);
`product_name` can be missing (`pd.isna`). -/
structure SubRow where
  week_start : ℕ
  sub_id : String
  product_name : Option String
  segment : String
deriving DecidableEq

/-- ASCII lowercasing of one character (`str.lower`). -/
def lower_char (c : Char) : Char :=
  if 'A' ≤ c ∧ c ≤ 'Z' then Char.ofNat (c.toNat + 32) else c

/-- ASCII lowercasing of a character list. -/
def to_lower (l : List Char) : List Char :=
  l.map lower_char

/-- Substring test: does `pat` occur contiguously inside `s`
(Python `pat in s` / `str.contains` with a plain alternation branch). -/
def has_substr (pat : List Char) : List Char → Bool
  | [] => pat.isEmpty
  | c :: rest => pat.isPrefixOf (c :: rest) || has_substr pat rest

/-- Decimal value of a digit run (`int(...)` on the matched group). -/
def digits_val (l : List Char) : ℕ :=
  l.foldl (fun a c => 10 * a + (c.toNat - 48)) 0

/-- Leftmost match of the regex `(\d+)gb` via `re.search`: a maximal digit
run immediately followed by `gb`; the value of the digit run is returned.
Scanning advances one character at a time, which agrees with the regex
engine because a proper suffix of a failed maximal digit run also fails. -/
def scan_gb : List Char → Option ℕ
  | [] => none
  | c :: rest =>
      if c.isDigit then
        if (['g', 'b']).isPrefixOf ((c :: rest).dropWhile Char.isDigit) then
          some (digits_val ((c :: rest).takeWhile Char.isDigit))
        else scan_gb rest
      else scan_gb rest

/-- The value returned by `_extract_gb`: the string `"unlimited"` or a
parsed integer. -/
inductive GBTag where
  | unlimited
  | amount (n : ℕ)
deriving DecidableEq

/-- `_extract_gb`: `None` on a missing name; `"unlimited"` when the
lowercased name contains that substring; otherwise the first `(\d+)gb`
match; otherwise `None`. -/
def extract_gb (product_name : Option String) : Option GBTag :=
  match product_name with
  | none => none
  | some s =>
      let name := to_lower s.data
      if has_substr "unlimited".data name then some .unlimited
      else
        match scan_gb name with
        | some n => some (.amount n)
        | none => none

/-- `_is_high_tier`: `"unlimited"` or a parsed allowance strictly above 50. -/
def is_high_tier (product_name : Option String) : Bool :=
  match extract_gb product_name with
  | some .unlimited => true
  | some (.amount n) => decide (50 < n)
  | none => false

/-- The postpaid `value_flag`: case-insensitive
`str.contains(r"(basic|save|4all|lifeline)", na=False)`. -/
def is_value_name (product_name : Option String) : Bool :=
  match product_name with
  | none => false
  | some s =>
      let n := to_lower s.data
      has_substr "basic".data n || has_substr "save".data n ||
        has_substr "4all".data n || has_substr "lifeline".data n

/-- Number of distinct ids already not in `seen` (`nunique` helper). -/
def ndistinct_aux (seen : List String) : List String → ℕ
  | [] => 0
  | a :: rest =>
      if seen.contains a then ndistinct_aux seen rest
      else 1 + ndistinct_aux (a :: seen) rest

/-- pandas `Series.nunique()` over non-null ids. -/
def ndistinct (l : List String) : ℕ :=
  ndistinct_aux [] l

/-- Insert a week key into a sorted list of distinct keys. -/
def insert_week (n : ℕ) : List ℕ → List ℕ
  | [] => [n]
  | a :: rest =>
      if n < a then n :: a :: rest
      else if n = a then a :: rest
      else a :: insert_week n rest

/-- Sorted distinct week keys (`groupby` sorts group keys ascending). -/
def week_keys (l : List ℕ) : List ℕ :=
  l.foldl (fun acc w => insert_week w acc) []

/-- `df.groupby("week_start")["unique_subscription_id"].nunique()`:
one `(week, count)` pair per week present in `rows`, sorted by week. -/
def weekly_nunique (rows : List SubRow) : List (ℕ × ℚ) :=
  (week_keys (rows.map SubRow.week_start)).map
    (fun w => (w, (ndistinct ((rows.filter (fun r => r.week_start == w)).map SubRow.sub_id) : ℚ)))

/-- The weekly merge of total counts with flagged counts, left join with
`fillna(0)`: `(week, total, flagged)` per week, sorted by week. -/
def merged_weekly (rows : List SubRow) (flag : SubRow → Bool) : List (ℕ × ℚ × ℚ) :=
  let total := weekly_nunique rows
  let flagged := weekly_nunique (rows.filter flag)
  total.map (fun p => (p.1, p.2, (flagged.lookup p.1).getD 0))

/-- One post-`dropna` row of the regime-shift spine (prepaid names shown;
the postpaid spine has the same shape with `value_` columns). -/
structure SpineRow where
  week : ℕ
  total_adds : ℚ
  high_adds : ℚ
  adds_4w : ℚ
  high_share : ℚ
  high_4w : ℚ
deriving DecidableEq

/-- Pointwise combination of the spine columns into rows. -/
def zip_spine : List ℕ → List ℚ → List ℚ → List ℚ → List ℚ → List ℚ → List SpineRow
  | w :: ws, t :: ts, h :: hs, a :: a4, s :: ss, m :: ms =>
      ⟨w, t, h, a, s, m⟩ :: zip_spine ws ts hs a4 ss ms
  | _, _, _, _, _, _ => []

/-- The regime-shift spine: weekly totals and flagged counts, per-week
share, 4-week rolling sum of totals and 4-week rolling mean of the share,
restricted to the rows kept by `dropna()` (positions `3..`). -/
def build_sub_spine (rows : List SubRow) (flag : SubRow → Bool) : List SpineRow :=
  let wk := merged_weekly rows flag
  let weeks := wk.map (fun t => t.1)
  let totals := wk.map (fun t => t.2.1)
  let flagged := wk.map (fun t => t.2.2)
  let shares := wk.map (fun t => t.2.2 / t.2.1)
  let adds4 := rolling_sum 4 totals
  let share4 := (windows 4 shares).map mean_q
  zip_spine (weeks.drop 3) (totals.drop 3) (flagged.drop 3) adds4 (shares.drop 3) share4

/-- The metrics dict of the prepaid (premium-shift) check.  `adds_rat`
models the `"adds_ratio"` key. -/
structure PrepMetrics where
  adds_rat : ℚ
  share_delta : Option ℚ
  recent_correlation : Option ℝ
  avg_adds_pre : Option ℚ
  avg_adds_post : ℚ
  high_share_pre : Option ℚ
  high_share_post : ℚ

/-- The result dict of `_detect_prepaid_driver`; keys absent on the early
branches are `Option`-typed. -/
structure PrepResult where
  segment : String
  driver : Option String
  detected : Bool
  confidence : Option String
  reason : Option String
  metrics : Option PrepMetrics

/-- `_detect_prepaid_driver`. -/
noncomputable def detect_prepaid_driver (master : List SubRow) : PrepResult :=
  let df := master.filter (fun r => r.segment == "prepaid")
  if df.isEmpty then ⟨"prepaid", none, false, none, some "No prepaid data", none⟩
  else
    let spine := build_sub_spine df (fun r => is_high_tier r.product_name)
    if spine.length < 8 then ⟨"prepaid", none, false, none, some "Insufficient data", none⟩
    else
      let pre := spine.filter (fun r => decide (r.high_4w < 0.15))
      let post := spine.filter (fun r => decide ((0.15 : ℚ) ≤ r.high_4w))
      if post.length < 4 then ⟨"prepaid", none, false, none, some "No premium regime", none⟩
      else
        let avg_adds_pre := qmean (pre.map SpineRow.adds_4w)
        let avg_adds_post := mean_q (post.map SpineRow.adds_4w)
        let avg_high_pre := qmean (pre.map SpineRow.high_4w)
        let avg_high_post := mean_q (post.map SpineRow.high_4w)
        let adds_rat : ℚ :=
          match avg_adds_pre with
          | some p => if 0 < p then avg_adds_post / p else 0
          | none => 0
        let share_delta : Option ℚ := avg_high_pre.map (fun hp => avg_high_post - hp)
        let corr := rolling_corr_col 6 (spine.map SpineRow.high_4w) (spine.map SpineRow.adds_4w)
        let recent_corr : Option ℝ := corr.getLast?.join
        let detected : Bool :=
          optGEq share_delta 0.10 && decide ((1.2 : ℚ) ≤ adds_rat) && optGEr recent_corr 0.6
        ⟨"prepaid", some "premium_shift", detected,
          some (if detected then "high" else "low"), none,
          some ⟨adds_rat, share_delta, recent_corr, avg_adds_pre, avg_adds_post,
            avg_high_pre, avg_high_post⟩⟩

/-- The metrics dict of the postpaid (value-mix) check.  `adds_rat`
models the `"adds_ratio"` key. -/
structure PostMetrics where
  adds_rat : ℚ
  share_delta : ℚ
  recent_correlation : Option ℝ
  avg_adds_previous : ℚ
  avg_adds_recent : ℚ
  value_share_previous : ℚ
  value_share_recent : ℚ

/-- The result dict of `_detect_postpaid_driver`. -/
structure PostResult where
  segment : String
  driver : Option String
  detected : Bool
  confidence : Option String
  reason : Option String
  metrics : Option PostMetrics

/-- `_detect_postpaid_driver`. -/
noncomputable def detect_postpaid_driver (master : List SubRow) : PostResult :=
  let df := master.filter (fun r => r.segment == "postpaid")
  if df.isEmpty then ⟨"postpaid", none, false, none, some "No postpaid data", none⟩
  else
    let spine := build_sub_spine df (fun r => is_value_name r.product_name)
    if spine.length < 16 then ⟨"postpaid", none, false, none, some "Insufficient data", none⟩
    else
      let recent := tail_n 8 spine
      let previous := (spine.drop (spine.length - 16)).take 8
      let avg_adds_recent := mean_q (recent.map SpineRow.adds_4w)
      let avg_adds_previous := mean_q (previous.map SpineRow.adds_4w)
      let avg_value_recent := mean_q (recent.map SpineRow.high_4w)
      let avg_value_previous := mean_q (previous.map SpineRow.high_4w)
      let adds_rat : ℚ :=
        if 0 < avg_adds_previous then avg_adds_recent / avg_adds_previous else 0
      let share_delta : ℚ := avg_value_recent - avg_value_previous
      let corr := rolling_corr_col 6 (spine.map SpineRow.high_4w) (spine.map SpineRow.adds_4w)
      let recent_corr : Option ℝ := corr.getLast?.join
      let detected : Bool :=
        decide ((0.05 : ℚ) ≤ share_delta) && decide ((1.2 : ℚ) ≤ adds_rat) &&
          optGEr recent_corr 0.5
      ⟨"postpaid", some "value_mix_shift", detected,
        some (if detected then "high" else "low"), none,
        some ⟨adds_rat, share_delta, recent_corr, avg_adds_previous, avg_adds_recent,
          avg_value_previous, avg_value_recent⟩⟩

/-- The composite dict of `detect_subscription_drivers`. -/
structure SubscriptionAnalysis where
  prepaid : PrepResult
  postpaid : PostResult

/-- `detect_subscription_drivers`, the public entrypoint. -/
noncomputable def detect_subscription_drivers (master : List SubRow) : SubscriptionAnalysis :=
  ⟨detect_prepaid_driver master, detect_postpaid_driver master⟩

/-! ### Concrete example inputs used by evaluation theorems -/

/-- 15 alignment weeks whose first six target counts are zero: the first
4-week target rolling sum is exactly zero. -/
def exC7 : List AlignRow :=
  [⟨1, 0, 1⟩, ⟨2, 0, 1⟩, ⟨3, 0, 1⟩, ⟨4, 0, 1⟩, ⟨5, 0, 1⟩, ⟨6, 0, 1⟩,
   ⟨7, 1, 1⟩, ⟨8, 1, 1⟩, ⟨9, 1, 1⟩, ⟨10, 1, 1⟩, ⟨11, 1, 1⟩, ⟨12, 1, 1⟩,
   ⟨13, 1, 1⟩, ⟨14, 1, 1⟩, ⟨15, 1, 1⟩]

/-- 15 alignment weeks with strictly increasing driver counts and target
exactly twice the driver. -/
def exC8w : List AlignRow :=
  (List.range 15).map (fun i => ⟨i + 1, 2 * ((i : ℚ) + 1), (i : ℚ) + 1⟩)

/-- 15 alignment weeks with constant counts and target exactly twice the
driver: every smoothed window is constant. -/
def exC8c : List AlignRow :=
  (List.range 15).map (fun i => ⟨i + 1, 2, 1⟩)

/-- 11 prepaid weeks of one "unlimited" record each. -/
def exPre : List SubRow :=
  (List.range 11).map (fun i => ⟨i + 1, "a", some "unlimited", "prepaid"⟩)

/-- 19 postpaid weeks of one "basic plan" record each. -/
def exPost : List SubRow :=
  (List.range 19).map (fun i => ⟨i + 1, "a", some "basic plan", "postpaid"⟩)

/-- 12 prepaid weeks of one "Unlimited Max" record each: every smoothed
high-tier share sits at 1, above the regime threshold. -/
def exC10 : List SubRow :=
  (List.range 12).map (fun i => ⟨i + 1, "b", some "Unlimited Max", "prepaid"⟩)

/-! ### Small lemmas about the option-valued comparisons -/

/-- `optGEr o t` succeeds exactly on a present value at least `t`. -/
theorem optGEr_eq_true_iff (o : Option ℝ) (t : ℝ) :
    optGEr o t = true ↔ ∃ x, o = some x ∧ t ≤ x := by
  cases o <;> simp [optGEr]

/-- `optGEq o t` succeeds exactly on a present value at least `t`. -/
theorem optGEq_eq_true_iff (o : Option ℚ) (t : ℚ) :
    optGEq o t = true ↔ ∃ x, o = some x ∧ t ≤ x := by
  cases o <;> simp [optGEq]

/-! ### C1 — the alignment classification is the conjunction of the three
gates on the reported metrics -/

/-- C1: for every spine, the `aligned` field of the alignment summary is
`true` exactly when the reported `corr_recent_avg` is present and at least
0.60, the reported `share_recent_avg` is present and at least 0.10, and the
reported `alignment_score` is at least 0.65; in particular a passing score
with a failing share gate yields `aligned = false`. -/
theorem spec_C1 (sp : Spine) :
    (summarize_alignment sp).aligned = true ↔
      ((∃ x, (summarize_alignment sp).metrics.corr_recent_avg = some x ∧ (0.60 : ℝ) ≤ x) ∧
       (∃ q, (summarize_alignment sp).metrics.share_recent_avg = some q ∧ (0.10 : ℚ) ≤ q) ∧
       (0.65 : ℝ) ≤ (summarize_alignment sp).metrics.alignment_score) := by
  simp only [summarize_alignment, Bool.and_eq_true, optGEr_eq_true_iff, optGEq_eq_true_iff,
    decide_eq_true_eq, and_assoc]

/-! ### C3 — shape and bounds of the alignment score -/

/-- The share component always lies in `[0, 1]`. -/
theorem share_component_mem (s : Option ℝ) :
    0 ≤ share_component s ∧ share_component s ≤ 1 := by
  cases s with
  | none => simp [share_component]
  | some x =>
      refine ⟨le_min (le_max_right x 0) zero_le_one, min_le_right _ _⟩

/-- The corr component lies in `[0, 1]` when the correlation does. -/
theorem corr_component_mem (c : Option ℝ) (hc : ∀ x, c = some x → -1 ≤ x ∧ x ≤ 1) :
    0 ≤ corr_component c ∧ corr_component c ≤ 1 := by
  cases c with
  | none => simp [corr_component]
  | some x =>
      obtain ⟨h1, h2⟩ := hc x rfl
      constructor
      · simp only [corr_component]
        linarith
      · simp only [corr_component]
        linarith

/-- C3: the alignment score is the 0.7/0.3 weighted sum of the corr
component `(corr + 1)/2` (null to 0) and the clamped share component (null
to 0); it lies in `[0, 1]` whenever the correlation argument is a genuine
correlation value (in `[-1, 1]` when present), and is exactly 0 when both
inputs are null. -/
theorem spec_C3 (c s : Option ℝ) (hc : ∀ x, c = some x → -1 ≤ x ∧ x ≤ 1) :
    alignment_score c s = 0.7 * corr_component c + 0.3 * share_component s ∧
    0 ≤ alignment_score c s ∧ alignment_score c s ≤ 1 ∧
    alignment_score none none = 0 := by
  obtain ⟨hc0, hc1⟩ := corr_component_mem c hc
  obtain ⟨hs0, hs1⟩ := share_component_mem s
  refine ⟨rfl, ?_, ?_, ?_⟩
  · simp only [alignment_score]
    nlinarith
  · simp only [alignment_score]
    nlinarith
  · norm_num [alignment_score, corr_component, share_component]

/-- Witness for C3 at a concrete correlation `1/2` and share `1/3`. -/
theorem spec_C3_w :
    (∀ x, (some (1 / 2 : ℝ) : Option ℝ) = some x → -1 ≤ x ∧ x ≤ 1) ∧
    (0 ≤ alignment_score (some (1 / 2)) (some (1 / 3)) ∧
      alignment_score (some (1 / 2)) (some (1 / 3)) ≤ 1) := by
  have hc : ∀ x, (some (1 / 2 : ℝ) : Option ℝ) = some x → -1 ≤ x ∧ x ≤ 1 := by
    intro x hx
    obtain rfl : (1 / 2 : ℝ) = x := by simpa using hx
    norm_num
  exact ⟨hc, (spec_C3 (some (1 / 2)) (some (1 / 3)) hc).2.1,
    (spec_C3 (some (1 / 2)) (some (1 / 3)) hc).2.2.1⟩

/-! ### C4 — the insufficient-data branch of the three spine checks -/

/-- C4: when fewer than `MIN_POINTS = 12` rows survive the 4-week rolling
sums and the `dropna`, each spine-based driver check returns the structured
insufficient-data result — `aligned = false`, `confidence = "low"`, a
reason string, and no metrics key — rather than an exception. -/
theorem spec_C4 (df : List AlignRow) (h : (target_rw_of df).length < 12) :
    detect_postpaid_add_driver df =
      ⟨"retail_add_growth", false, "low", none, some "Insufficient data"⟩ ∧
    detect_postpaid_churn_driver df =
      ⟨"competitive_churn_spike", false, "low", none, some "Insufficient data"⟩ ∧
    detect_prepaid_add_driver df =
      ⟨"portin_add_growth", false, "low", none, some "Insufficient data"⟩ := by
  have hb : build_spine df = none := by
    unfold build_spine
    rw [if_pos h]
  refine ⟨?_, ?_, ?_⟩ <;>
    simp [detect_postpaid_add_driver, detect_postpaid_churn_driver,
      detect_prepaid_add_driver, detect_driver, hb]

/-- Witness for C4 at the empty input table. -/
theorem spec_C4_w :
    (target_rw_of []).length < 12 ∧
    detect_postpaid_add_driver [] =
      ⟨"retail_add_growth", false, "low", none, some "Insufficient data"⟩ :=
  ⟨by decide, (spec_C4 [] (by decide)).1⟩

/-! ### C5 — totality and shape of the tier classifier -/

/-- C5: the tier classifier is a total Boolean function of an optional
name: `true` exactly when the lowercased name contains "unlimited" or some
maximal digit run immediately followed by "gb" parses to an integer above
50; all other names — empty, unparseable or missing — give `false`; with
the four concrete evaluations required by the spec. -/
theorem spec_C5 :
    (∀ p : Option String, is_high_tier p = true ↔
      ∃ s, p = some s ∧
        (has_substr "unlimited".data (to_lower s.data) = true ∨
         ∃ n, scan_gb (to_lower s.data) = some n ∧ 50 < n)) ∧
    is_high_tier (some "Unlimited Data Plan") = true ∧
    is_high_tier (some "60GB Plan") = true ∧
    is_high_tier (some "40GB Plan") = false ∧
    is_high_tier (some "") = false ∧
    is_high_tier none = false := by
  refine ⟨?_, by decide, by decide, by decide, by decide, by decide⟩
  intro p
  cases p with
  | none => simp [is_high_tier, extract_gb]
  | some s =>
      simp only [is_high_tier, extract_gb, Option.some.injEq, exists_eq_left']
      by_cases hu : has_substr "unlimited".data (to_lower s.data) = true
      · simp [hu]
      · rw [if_neg hu]
        simp only [Bool.not_eq_true] at hu
        cases hsc : scan_gb (to_lower s.data) with
        | none => simp [hu, hsc]
        | some n => simp [hu, hsc]

/-! ### C9 — the prepaid-churn stub passes through the composite builder -/

/-- C9: for every combination of inputs, the prepaid-churn entry of the
composite result is exactly the constant stub
`driver = "no_structural_driver_detected"`, `aligned = false`,
`confidence = "low"`, `metrics = {}`. -/
theorem spec_C9 (a b c d : List AlignRow) :
    (detect_add_churn_drivers a b c d).prepaid_churn =
      ⟨"no_structural_driver_detected", false, "low", some .emptyDict, none⟩ :=
  rfl

/-! ### Branch-shape lemmas for the regime-shift detectors -/

/-- Every prepaid result is either an early reason-only branch (without a
confidence or metrics key) or the fully computed branch, whose `detected`
flag is the three-gate conjunction over the values stored in the metrics. -/
theorem detect_prepaid_driver_shape (master : List SubRow) :
    (∃ reason, detect_prepaid_driver master =
      ⟨"prepaid", none, false, none, some reason, none⟩) ∨
    (∃ ar sd rc ap apo hp hpo, detect_prepaid_driver master =
      ⟨"prepaid", some "premium_shift",
        optGEq sd 0.10 && decide ((1.2 : ℚ) ≤ ar) && optGEr rc 0.6,
        some (if optGEq sd 0.10 && decide ((1.2 : ℚ) ≤ ar) && optGEr rc 0.6
          then "high" else "low"),
        none, some ⟨ar, sd, rc, ap, apo, hp, hpo⟩⟩) := by
  simp only [detect_prepaid_driver]
  split
  next h1 => exact Or.inl ⟨"No prepaid data", rfl⟩
  next h1 =>
    split
    next h2 => exact Or.inl ⟨"Insufficient data", rfl⟩
    next h2 =>
      split
      next h3 => exact Or.inl ⟨"No premium regime", rfl⟩
      next h3 => exact Or.inr ⟨_, _, _, _, _, _, _, rfl⟩

/-- The postpaid analogue of `detect_prepaid_driver_shape`. -/
theorem detect_postpaid_driver_shape (master : List SubRow) :
    (∃ reason, detect_postpaid_driver master =
      ⟨"postpaid", none, false, none, some reason, none⟩) ∨
    (∃ ar sd rc ap apo vp vr, detect_postpaid_driver master =
      ⟨"postpaid", some "value_mix_shift",
        decide ((0.05 : ℚ) ≤ sd) && decide ((1.2 : ℚ) ≤ ar) && optGEr rc 0.5,
        some (if decide ((0.05 : ℚ) ≤ sd) && decide ((1.2 : ℚ) ≤ ar) && optGEr rc 0.5
          then "high" else "low"),
        none, some ⟨ar, sd, rc, ap, apo, vp, vr⟩⟩) := by
  simp only [detect_postpaid_driver]
  split
  next h1 => exact Or.inl ⟨"No postpaid data", rfl⟩
  next h1 =>
    split
    next h2 => exact Or.inl ⟨"Insufficient data", rfl⟩
    next h2 => exact Or.inr ⟨_, _, _, _, _, _, _, rfl⟩

/-! ### C2 — regime-shift classification is the conjunction of the three
variant-specific gates -/

/-- C2: whenever a regime-shift check reaches its fully computed branch
(metrics present), `detected` is `true` exactly when the reported
`share_delta`, `adds_ratio` and `recent_correlation` clear the
variant-specific thresholds: 0.10 / 1.2 / 0.6 for the premium variant,
0.05 / 1.2 / 0.5 for the value-mix variant. -/
theorem spec_C2 (df1 df2 : List SubRow) (m1 : PrepMetrics) (m2 : PostMetrics)
    (h1 : (detect_prepaid_driver df1).metrics = some m1)
    (h2 : (detect_postpaid_driver df2).metrics = some m2) :
    ((detect_prepaid_driver df1).detected = true ↔
      (optGEq m1.share_delta 0.10 = true ∧ (1.2 : ℚ) ≤ m1.adds_rat ∧
        optGEr m1.recent_correlation 0.6 = true)) ∧
    ((detect_postpaid_driver df2).detected = true ↔
      ((0.05 : ℚ) ≤ m2.share_delta ∧ (1.2 : ℚ) ≤ m2.adds_rat ∧
        optGEr m2.recent_correlation 0.5 = true)) := by
  constructor
  · rcases detect_prepaid_driver_shape df1 with ⟨r, hr⟩ | ⟨ar, sd, rc, ap, apo, hp, hpo, hr⟩
    · rw [hr] at h1
      simp at h1
    · rw [hr] at h1
      simp only [Option.some.injEq] at h1
      subst h1
      rw [hr]
      simp [Bool.and_eq_true, and_assoc]
  · rcases detect_postpaid_driver_shape df2 with ⟨r, hr⟩ | ⟨ar, sd, rc, ap, apo, vp, vr, hr⟩
    · rw [hr] at h2
      simp at h2
    · rw [hr] at h2
      simp only [Option.some.injEq] at h2
      subst h2
      rw [hr]
      simp [Bool.and_eq_true, and_assoc]

attribute [local semireducible] Rat.add Rat.mul Rat.inv Rat.sub Rat.ofScientific in
/-- Witness for C2: both detectors reach the computed branch on concrete
inputs, and the gate equivalence holds there. -/
theorem spec_C2_w :
    (detect_prepaid_driver exPre).metrics = some ⟨0, none, none, none, 4, none, 1⟩ ∧
    (detect_postpaid_driver exPost).metrics = some ⟨1, 0, none, 4, 4, 1, 1⟩ ∧
    (((detect_prepaid_driver exPre).detected = true ↔
        (optGEq (none : Option ℚ) 0.10 = true ∧ (1.2 : ℚ) ≤ 0 ∧
          optGEr (none : Option ℝ) 0.6 = true)) ∧
     ((detect_postpaid_driver exPost).detected = true ↔
        ((0.05 : ℚ) ≤ 0 ∧ (1.2 : ℚ) ≤ 1 ∧ optGEr (none : Option ℝ) 0.5 = true))) :=
  ⟨rfl, rfl, spec_C2 exPre exPost ⟨0, none, none, none, 4, none, 1⟩ ⟨1, 0, none, 4, 4, 1, 1⟩ rfl rfl⟩

/-! ### C6 — which results carry a confidence field, and with which values -/

/-- The common alignment body always reports one of the three confidence
grades. -/
theorem detect_driver_confidence (name : String) (df : List AlignRow) :
    (detect_driver name df).confidence = "high" ∨
    (detect_driver name df).confidence = "medium" ∨
    (detect_driver name df).confidence = "low" := by
  unfold detect_driver
  cases hbs : build_spine df with
  | none => simp
  | some sp =>
      simp only [summarize_alignment]
      split_ifs <;> simp

/-- Counterexample to C6 as stated: on an empty master table the prepaid
regime-shift result carries no confidence key at all. -/
theorem spec_C6_cex :
    ¬ ((detect_prepaid_driver []).confidence = some "high" ∨
       (detect_prepaid_driver []).confidence = some "medium" ∨
       (detect_prepaid_driver []).confidence = some "low") := by
  have h : (detect_prepaid_driver []).confidence = none := rfl
  rw [h]
  simp

/-- C6 (amended): every alignment-engine result carries a confidence grade
in {high, medium, low}; a regime-shift result is exhaustively one of two
shapes — an early branch that is a reason-only record omitting both the
confidence and the metrics keys, or the fully computed branch, which always
carries a confidence key with grade "high" or "low" together with its
metrics. -/
theorem spec_C6_amended (a b c d : List AlignRow) (p q : List SubRow) :
    ((detect_postpaid_add_driver a).confidence = "high" ∨
     (detect_postpaid_add_driver a).confidence = "medium" ∨
     (detect_postpaid_add_driver a).confidence = "low") ∧
    ((detect_postpaid_churn_driver b).confidence = "high" ∨
     (detect_postpaid_churn_driver b).confidence = "medium" ∨
     (detect_postpaid_churn_driver b).confidence = "low") ∧
    ((detect_prepaid_add_driver c).confidence = "high" ∨
     (detect_prepaid_add_driver c).confidence = "medium" ∨
     (detect_prepaid_add_driver c).confidence = "low") ∧
    ((detect_prepaid_churn_driver d).confidence = "high" ∨
     (detect_prepaid_churn_driver d).confidence = "medium" ∨
     (detect_prepaid_churn_driver d).confidence = "low") ∧
    ((∃ reason, detect_prepaid_driver p =
        ⟨"prepaid", none, false, none, some reason, none⟩) ∨
     (∃ cf m, (detect_prepaid_driver p).confidence = some cf ∧
        (cf = "high" ∨ cf = "low") ∧
        (detect_prepaid_driver p).metrics = some m)) ∧
    ((∃ reason, detect_postpaid_driver q =
        ⟨"postpaid", none, false, none, some reason, none⟩) ∨
     (∃ cf m, (detect_postpaid_driver q).confidence = some cf ∧
        (cf = "high" ∨ cf = "low") ∧
        (detect_postpaid_driver q).metrics = some m)) := by
  refine ⟨detect_driver_confidence _ a, detect_driver_confidence _ b,
    detect_driver_confidence _ c, Or.inr (Or.inr rfl), ?_, ?_⟩
  · rcases detect_prepaid_driver_shape p with ⟨r, hr⟩ | ⟨ar, sd, rc, ap, apo, hp, hpo, hr⟩
    · exact Or.inl ⟨r, hr⟩
    · refine Or.inr ⟨_, ⟨ar, sd, rc, ap, apo, hp, hpo⟩, by rw [hr], ?_, by rw [hr]⟩
      by_cases hd : (optGEq sd 0.10 && decide ((1.2 : ℚ) ≤ ar) && optGEr rc 0.6) = true
      · rw [if_pos hd]
        exact Or.inl rfl
      · rw [if_neg hd]
        exact Or.inr rfl
  · rcases detect_postpaid_driver_shape q with ⟨r, hr⟩ | ⟨ar, sd, rc, ap, apo, vp, vr, hr⟩
    · exact Or.inl ⟨r, hr⟩
    · refine Or.inr ⟨_, ⟨ar, sd, rc, ap, apo, vp, vr⟩, by rw [hr], ?_, by rw [hr]⟩
      by_cases hd : (decide ((0.05 : ℚ) ≤ sd) && decide ((1.2 : ℚ) ≤ ar) && optGEr rc 0.5) = true
      · rw [if_pos hd]
        exact Or.inl rfl
      · rw [if_neg hd]
        exact Or.inr rfl

/-! ### C7 — the share column is the null-guarded quotient of the rolling
sums -/

/-- Pointwise description of the mapped zip underlying the share column. -/
theorem share_zip_getElem (xs ys : List ℚ) (j : ℕ) (d t : ℚ)
    (hd : xs[j]? = some d) (ht : ys[j]? = some t) :
    ((xs.zip ys).map (fun p => safe_div p.1 p.2))[j]? = some (safe_div d t) := by
  induction xs generalizing ys j with
  | nil => simp at hd
  | cons a rest ih =>
      cases ys with
      | nil => simp at ht
      | cons b rest2 =>
          cases j with
          | zero =>
              simp only [List.getElem?_cons_zero, Option.some.injEq] at hd ht
              subst hd
              subst ht
              simp
          | succ k =>
              simp only [List.getElem?_cons_succ] at hd ht
              simpa using ih rest2 k hd ht

/-- C7: wherever both rolling sums are defined, the spine's share entry is
`driver_rw / target_rw` when the target rolling sum is nonzero and the
null value when it is exactly zero — never a division fault. -/
theorem spec_C7 (df : List AlignRow) (j : ℕ) (d t : ℚ)
    (hd : (driver_rw_of df)[j]? = some d) (ht : (target_rw_of df)[j]? = some t) :
    (share_col_of df)[j]? = some (if t = 0 then none else some (d / t)) := by
  have h := share_zip_getElem (driver_rw_of df) (target_rw_of df) j d t hd ht
  simpa [share_col_of, safe_div] using h

attribute [local semireducible] Rat.add Rat.mul Rat.inv Rat.sub Rat.ofScientific in
/-- Witness for C7 at a spine row whose target rolling sum is zero. -/
theorem spec_C7_w :
    (driver_rw_of exC7)[0]? = some 4 ∧ (target_rw_of exC7)[0]? = some 0 ∧
    (share_col_of exC7)[0]? = some none :=
  ⟨by decide, by decide, by simpa using spec_C7 exC7 0 4 0 (by decide) (by decide)⟩

/-! ### C10 — an all-high spine has an empty pre-regime, adds ratio 0 and
no detection -/

/-- C10: if the prepaid data passes the emptiness and length gates and
every post-smoothing week has a 4-week high-tier share at or above the
0.15 regime threshold, then the pre-regime partition is empty, the
reported adds ratio is 0, and `detected` is `false`. -/
theorem spec_C10 (master : List SubRow)
    (hne : (master.filter (fun r => r.segment == "prepaid")).isEmpty = false)
    (hlen : 8 ≤ (build_sub_spine (master.filter (fun r => r.segment == "prepaid"))
      (fun r => is_high_tier r.product_name)).length)
    (hall : ∀ r ∈ build_sub_spine (master.filter (fun r => r.segment == "prepaid"))
      (fun r => is_high_tier r.product_name), (0.15 : ℚ) ≤ r.high_4w) :
    (detect_prepaid_driver master).detected = false ∧
    ∃ m, (detect_prepaid_driver master).metrics = some m ∧ m.adds_rat = 0 := by
  have hpre : (build_sub_spine (master.filter (fun r => r.segment == "prepaid"))
      (fun r => is_high_tier r.product_name)).filter
        (fun r => decide (r.high_4w < 0.15)) = [] := by
    rw [List.filter_eq_nil_iff]
    intro a ha
    simp only [decide_eq_true_eq]
    exact not_lt.mpr (hall a ha)
  have hpost : (build_sub_spine (master.filter (fun r => r.segment == "prepaid"))
      (fun r => is_high_tier r.product_name)).filter
        (fun r => decide ((0.15 : ℚ) ≤ r.high_4w)) =
      build_sub_spine (master.filter (fun r => r.segment == "prepaid"))
        (fun r => is_high_tier r.product_name) := by
    rw [List.filter_eq_self]
    intro a ha
    exact decide_eq_true (hall a ha)
  simp only [detect_prepaid_driver, hne, Bool.false_eq_true, if_false]
  rw [if_neg (not_lt.mpr hlen), hpost, hpre,
    if_neg (not_lt.mpr (le_trans (by norm_num) hlen))]
  simp only [qmean, List.map_nil, List.isEmpty_nil, if_true, Option.map_none']
  refine ⟨?_, ⟨_, rfl, rfl⟩⟩
  simp [optGEq]

attribute [local semireducible] Rat.add Rat.mul Rat.inv Rat.sub Rat.ofScientific in
/-- Witness for C10 on twelve all-high prepaid weeks. -/
theorem spec_C10_w :
    (exC10.filter (fun r => r.segment == "prepaid")).isEmpty = false ∧
    8 ≤ (build_sub_spine (exC10.filter (fun r => r.segment == "prepaid"))
      (fun r => is_high_tier r.product_name)).length ∧
    (∀ r ∈ build_sub_spine (exC10.filter (fun r => r.segment == "prepaid"))
      (fun r => is_high_tier r.product_name), (0.15 : ℚ) ≤ r.high_4w) ∧
    ((detect_prepaid_driver exC10).detected = false ∧
      ∃ m, (detect_prepaid_driver exC10).metrics = some m ∧ m.adds_rat = 0) :=
  ⟨by decide, by decide, by decide,
    spec_C10 exC10 (by decide) (by decide) (by decide)⟩

/-! ### C8 — perfectly proportional series and the rolling correlation -/

/-- Membership in an insertion step of the week sort. -/
theorem mem_insertRow (r a : AlignRow) (l : List AlignRow) :
    a ∈ insertRow r l ↔ a = r ∨ a ∈ l := by
  induction l with
  | nil => simp [insertRow]
  | cons b t ih =>
      simp only [insertRow]
      by_cases h : r.week < b.week
      · rw [if_pos h]
        simp [List.mem_cons]
      · rw [if_neg h]
        simp only [List.mem_cons, ih]
        tauto

/-- Sorting by week does not change the multiset of rows (membership). -/
theorem mem_sortRows (a : AlignRow) (l : List AlignRow) :
    a ∈ sortRows l ↔ a ∈ l := by
  induction l with
  | nil => simp [sortRows]
  | cons b t ih => simp [sortRows, mem_insertRow, ih]

/-- If every row's target is `c` times its driver, the target column is the
scaled driver column. -/
theorem map_target_smul (c : ℚ) (l : List AlignRow)
    (h : ∀ r ∈ l, r.target = c * r.driver) :
    l.map AlignRow.target = (l.map AlignRow.driver).map (fun x => c * x) := by
  induction l with
  | nil => simp
  | cons a t ih =>
      simp only [List.map_cons, List.map_map, List.cons.injEq] at ih ⊢
      refine ⟨h a (by simp), ?_⟩
      simpa using ih (fun r hr => h r (by simp [hr]))

/-- `windows` commutes with `map`. -/
theorem windows_map (w : ℕ) (f : α → β) (l : List α) :
    windows w (l.map f) = (windows w l).map (List.map f) := by
  induction l with
  | nil => simp [windows]
  | cons a t ih =>
      simp only [List.map_cons, windows, List.length_map]
      by_cases h : t.length + 1 < w
      · rw [if_pos h, if_pos h]
        simp
      · rw [if_neg h, if_neg h, ih]
        simp [List.map_take]

/-- The number of full windows of width `w ≥ 1`. -/
theorem windows_length (w : ℕ) (hw : 1 ≤ w) (l : List α) :
    (windows w l).length = l.length + 1 - w := by
  induction l with
  | nil =>
      simp only [windows, List.length_nil]
      omega
  | cons a t ih =>
      simp only [windows]
      by_cases h : t.length + 1 < w
      · rw [if_pos h]
        simp only [List.length_nil, List.length_cons]
        omega
      · rw [if_neg h]
        simp only [List.length_cons, ih]
        omega

/-- Scaling a column scales each entry of its rolling sum. -/
theorem rolling_sum_smul (w : ℕ) (c : ℚ) (l : List ℚ) :
    rolling_sum w (l.map (fun x => c * x)) = (rolling_sum w l).map (fun x => c * x) := by
  unfold rolling_sum
  rw [windows_map, List.map_map, List.map_map]
  refine List.map_congr_left (fun v _ => ?_)
  simp only [Function.comp_apply]
  simpa using List.sum_map_mul_left v id c

/-- Zipping a column with its scaled copy is a `map` into pairs. -/
theorem zip_map_self (f : ℚ → ℚ) (l : List ℚ) :
    l.zip (l.map f) = l.map (fun x => (x, f x)) := by
  induction l with
  | nil => simp
  | cons a t ih => simp [ih]

/-- The mean scales with the column. -/
theorem mean_q_smul (c : ℚ) (v : List ℚ) :
    mean_q (v.map (fun x => c * x)) = c * mean_q v := by
  unfold mean_q
  have hs : (v.map (fun x => c * x)).sum = c * v.sum := by
    simpa using List.sum_map_mul_left v id c
  rw [List.length_map, hs, mul_div_assoc]

/-- The centered sum of squares picks up a factor `c ^ 2`. -/
theorem sq_dev_sum_smul (c : ℚ) (v : List ℚ) :
    sq_dev_sum (v.map (fun x => c * x)) = c ^ 2 * sq_dev_sum v := by
  unfold sq_dev_sum
  rw [mean_q_smul, List.map_map]
  have hfun : ((fun y => (y - c * mean_q v) ^ 2) ∘ fun x => c * x)
      = fun x => c ^ 2 * (x - mean_q v) ^ 2 := by
    funext x
    simp only [Function.comp_apply]
    ring
  rw [hfun]
  exact List.sum_map_mul_left v (fun x => (x - mean_q v) ^ 2) (c ^ 2)

/-- The centered cross sum against the scaled copy is `c` times the
centered sum of squares. -/
theorem cross_dev_sum_self_smul (c : ℚ) (v : List ℚ) :
    cross_dev_sum v (v.map (fun x => c * x)) = c * sq_dev_sum v := by
  unfold cross_dev_sum sq_dev_sum
  rw [mean_q_smul, zip_map_self, List.map_map]
  have hfun : ((fun p => (p.1 - mean_q v) * (p.2 - c * mean_q v)) ∘ fun x => (x, c * x))
      = fun x => c * ((x - mean_q v) ^ 2) := by
    funext x
    simp only [Function.comp_apply]
    ring
  rw [hfun]
  exact List.sum_map_mul_left v (fun x => (x - mean_q v) ^ 2) c

/-- The centered sum of squares is nonnegative. -/
theorem sq_dev_sum_nonneg (l : List ℚ) : 0 ≤ sq_dev_sum l := by
  refine List.sum_nonneg ?_
  intro x hx
  obtain ⟨a, _, rfl⟩ := List.mem_map.1 hx
  positivity

/-- Pearson correlation of a nonconstant window against a positive scaled
copy of itself is exactly 1. -/
theorem pearson_self_smul (c : ℚ) (hc : 0 < c) (v : List ℚ)
    (hv : sq_dev_sum v ≠ 0) :
    pearson v (v.map (fun x => c * x)) = some 1 := by
  have hpos : 0 < sq_dev_sum v := lt_of_le_of_ne (sq_dev_sum_nonneg v) (Ne.symm hv)
  unfold pearson
  rw [sq_dev_sum_smul, cross_dev_sum_self_smul]
  rw [if_neg (by push_neg; exact ⟨hv, by positivity⟩)]
  refine congrArg _ ?_
  have hS : (0 : ℝ) < ((sq_dev_sum v : ℚ) : ℝ) := by exact_mod_cast hpos
  have hcR : (0 : ℝ) < ((c : ℚ) : ℝ) := by exact_mod_cast hc
  push_cast
  rw [show ((sq_dev_sum v : ℚ) : ℝ) * (((c : ℚ) : ℝ) ^ 2 * ((sq_dev_sum v : ℚ) : ℝ))
      = (((c : ℚ) : ℝ) * ((sq_dev_sum v : ℚ) : ℝ)) ^ 2 by ring]
  rw [Real.sqrt_sq (by positivity)]
  exact div_self (by positivity)

/-- A NaN-skipping mean over a column whose defined entries all equal 1,
with at least one defined entry, is 1. -/
theorem nanmean_r_all_one (l : List (Option ℝ))
    (h : ∀ x ∈ l, x = none ∨ x = some 1) (hne : some (1 : ℝ) ∈ l) :
    nanmean_r l = some 1 := by
  have hv : ∀ y ∈ l.filterMap id, y = (1 : ℝ) := by
    intro y hy
    obtain ⟨a, ha, hay⟩ := List.mem_filterMap.1 hy
    rcases h a ha with rfl | rfl
    · simp at hay
    · simpa using hay.symm
  have h1 : (1 : ℝ) ∈ l.filterMap id := List.mem_filterMap.2 ⟨some 1, hne, rfl⟩
  have hnonempty : l.filterMap id ≠ [] := List.ne_nil_of_mem h1
  have hlenpos : 0 < (l.filterMap id).length := List.length_pos.2 hnonempty
  simp only [nanmean_r]
  rw [if_neg (by simpa [List.isEmpty_iff] using hnonempty)]
  refine congrArg _ ?_
  rw [List.sum_eq_card_nsmul _ _ hv, nsmul_eq_mul, mul_one]
  exact div_self (Nat.cast_ne_zero.2 hlenpos.ne')

/-- C8 (amended): whenever the target is a positive scalar multiple of the
driver row by row, the spine's driver rolling sums fill at least the 12-row
floor, and no 8-week correlation window of the smoothed series is constant,
the rolling correlation is exactly 1 at every defined position and the
engine's `corr_recent_avg` is exactly 1 — in particular at least 0.60. -/
theorem spec_C8_amended (df : List AlignRow) (c : ℚ) (hc : 0 < c)
    (hmul : ∀ r ∈ df, r.target = c * r.driver)
    (hnd : ∀ p ∈ windows 8 ((driver_rw_of df).zip (target_rw_of df)),
      sq_dev_sum (p.map Prod.fst) ≠ 0)
    (hlen : 12 ≤ (target_rw_of df).length) :
    (∀ j, 7 ≤ j → j < (corr_col_of df).length →
      (corr_col_of df)[j]? = some (some 1)) ∧
    (build_spine df).map (fun sp => (summarize_alignment sp).metrics.corr_recent_avg)
      = some (some 1) ∧
    (build_spine df).map
        (fun sp => optGEr (summarize_alignment sp).metrics.corr_recent_avg 0.60)
      = some true := by
  have hsorted : ∀ r ∈ sortRows df, r.target = c * r.driver :=
    fun r hr => hmul r ((mem_sortRows r df).1 hr)
  have heq : target_rw_of df = (driver_rw_of df).map (fun x => c * x) := by
    unfold target_rw_of driver_rw_of
    rw [map_target_smul c _ hsorted, rolling_sum_smul]
  have hzip : (driver_rw_of df).zip (target_rw_of df)
      = (driver_rw_of df).map (fun x => (x, c * x)) := by
    rw [heq, zip_map_self]
  have hwin : windows 8 ((driver_rw_of df).zip (target_rw_of df))
      = (windows 8 (driver_rw_of df)).map (List.map (fun x => (x, c * x))) := by
    rw [hzip, windows_map]
  have hall1 : ∀ x ∈ rolling_corr 8 (driver_rw_of df) (target_rw_of df), x = some 1 := by
    intro x hx
    unfold rolling_corr at hx
    obtain ⟨p, hp, hpx⟩ := List.mem_map.1 hx
    have hp0 := hp
    rw [hwin] at hp0
    obtain ⟨w0, hw0, rfl⟩ := List.mem_map.1 hp0
    have hfst : (w0.map (fun x => (x, c * x))).map Prod.fst = w0 := by
      rw [List.map_map]
      simp [Function.comp_def]
    have hsnd : (w0.map (fun x => (x, c * x))).map Prod.snd = w0.map (fun x => c * x) := by
      rw [List.map_map]
      rfl
    have hv : sq_dev_sum w0 ≠ 0 := by
      have := hnd _ hp
      rwa [hfst] at this
    rw [← hpx, hfst, hsnd]
    exact pearson_self_smul c hc w0 hv
  have hlen_zip : ((driver_rw_of df).zip (target_rw_of df)).length
      = (target_rw_of df).length := by
    rw [List.length_zip, heq, List.length_map, min_self, ← List.length_map (f := fun x => c * x), ← heq]
  have hlen_rc : (rolling_corr 8 (driver_rw_of df) (target_rw_of df)).length
      = (target_rw_of df).length - 7 := by
    unfold rolling_corr
    rw [List.length_map, windows_length 8 (by norm_num), hlen_zip]
    omega
  have hmin : min ((driver_rw_of df).zip (target_rw_of df)).length 7 = 7 := by
    rw [hlen_zip]
    omega
  have hcol : corr_col_of df
      = List.replicate 7 none ++ rolling_corr 8 (driver_rw_of df) (target_rw_of df) := by
    unfold corr_col_of rolling_corr_col
    rw [hmin]
  have hcollen : (corr_col_of df).length = (target_rw_of df).length := by
    rw [hcol, List.length_append, List.length_replicate, hlen_rc]
    omega
  have partA : ∀ j, 7 ≤ j → j < (corr_col_of df).length →
      (corr_col_of df)[j]? = some (some 1) := by
    intro j hj7 hjlen
    rw [hcol] at hjlen ⊢
    rw [List.getElem?_append_right (by simpa using hj7)]
    simp only [List.length_replicate]
    have hjr : j - 7 < (rolling_corr 8 (driver_rw_of df) (target_rw_of df)).length := by
      rw [List.length_append, List.length_replicate] at hjlen
      omega
    cases hx : (rolling_corr 8 (driver_rw_of df) (target_rw_of df))[j - 7]? with
    | none =>
        rw [List.getElem?_eq_none_iff] at hx
        omega
    | some x =>
        rw [hall1 x (List.getElem?_mem hx)]
  have hbL : build_spine df
      = some ⟨target_rw_of df, driver_rw_of df, share_col_of df, corr_col_of df⟩ := by
    unfold build_spine
    rw [if_neg (not_lt.mpr hlen)]
  have havg : (summarize_alignment
        ⟨target_rw_of df, driver_rw_of df, share_col_of df, corr_col_of df⟩).metrics.corr_recent_avg
      = nanmean_r (tail_n 8 (corr_col_of df)) := by
    simp only [summarize_alignment]
    rw [if_pos (by rw [hcollen]; omega)]
  have hmemcol : ∀ x ∈ corr_col_of df, x = none ∨ x = some 1 := by
    intro x hx
    rw [hcol] at hx
    rcases List.mem_append.1 hx with h | h
    · exact Or.inl (List.eq_of_mem_replicate h)
    · exact Or.inr (hall1 x h)
  have htail_mem : ∀ x ∈ tail_n 8 (corr_col_of df), x = none ∨ x = some 1 :=
    fun x hx => hmemcol x (List.drop_subset _ _ hx)
  have hlast : (tail_n 8 (corr_col_of df))[7]? = some (some 1) := by
    unfold tail_n
    rw [List.getElem?_drop]
    refine partA _ (by omega) ?_
    rw [hcollen]
    omega
  have hnm : nanmean_r (tail_n 8 (corr_col_of df)) = some 1 :=
    nanmean_r_all_one _ htail_mem (List.getElem?_mem hlast)
  refine ⟨partA, ?_, ?_⟩
  · rw [hbL, Option.map_some', havg, hnm]
  · rw [hbL, Option.map_some', havg, hnm]
    have h06 : ((0.60 : ℝ) ≤ 1) := by norm_num
    simp [optGEr, h06]

attribute [local semireducible] Rat.add Rat.mul Rat.inv Rat.sub Rat.ofScientific in
/-- Counterexample to C8 as stated: a constant driver series whose target
is exactly twice the driver fills both windows, yet every rolling
correlation entry is the NaN value (not 1.0) because the smoothed windows
are constant, and the recent correlation average fails the 0.60 gate. -/
theorem spec_C8_cex :
    (∀ r ∈ exC8c, r.target = 2 * r.driver) ∧
    12 ≤ (target_rw_of exC8c).length ∧
    (corr_col_of exC8c)[11]? = some none ∧
    (build_spine exC8c).map
        (fun sp => optGEr (summarize_alignment sp).metrics.corr_recent_avg 0.60)
      = some false := by
  refine ⟨by decide, by decide, ?_, ?_⟩
  · rfl
  · rfl

attribute [local semireducible] Rat.add Rat.mul Rat.inv Rat.sub Rat.ofScientific in
/-- Witness for the amended C8 on a strictly increasing driver series with
target exactly twice the driver. -/
theorem spec_C8_w :
    (0 : ℚ) < 2 ∧
    (∀ r ∈ exC8w, r.target = 2 * r.driver) ∧
    (∀ p ∈ windows 8 ((driver_rw_of exC8w).zip (target_rw_of exC8w)),
      sq_dev_sum (p.map Prod.fst) ≠ 0) ∧
    12 ≤ (target_rw_of exC8w).length ∧
    ((∀ j, 7 ≤ j → j < (corr_col_of exC8w).length →
        (corr_col_of exC8w)[j]? = some (some 1)) ∧
      (build_spine exC8w).map (fun sp => (summarize_alignment sp).metrics.corr_recent_avg)
        = some (some 1) ∧
      (build_spine exC8w).map
          (fun sp => optGEr (summarize_alignment sp).metrics.corr_recent_avg 0.60)
        = some true) :=
  ⟨by norm_num, by decide, by decide, by decide,
    spec_C8_amended exC8w 2 (by norm_num) (by decide) (by decide) (by decide)⟩

end TelecomForecast
